import Mathlib

/-!
Shallow embedding of the light-transport core of the `fractured-ray` repository
and proofs about it.

Embedding conventions:
* the scalar type `Val` (a wrapped `f64`) is modelled as `ℝ`;
* fallible operations return `Option`; where a source function can panic
  (`unwrap` / `expect` / `unimplemented!`), the model returns `Option` with
  `none` standing for the panic;
* the repository's math layer (`Vector`, `UnitVector`, `Point`, `Rotation`,
  `DisRange`, `Sphere`, `Color`) is not part of the provided sources, so those
  definitions are modelled from the specification, as marked in their
  doc comments; everything else is translated from the source files.
-/

namespace FracturedRay

open scoped Classical

/-- Modelled from the spec: `Vector` (and `Point`) are 3-component real-valued
tuples; `Point` arithmetic only ever appears through differences and
translations, so both are modelled by one type. -/
@[ext]
structure Vec3 where
  x : ℝ
  y : ℝ
  z : ℝ

namespace Vec3

def add (a b : Vec3) : Vec3 := ⟨a.x + b.x, a.y + b.y, a.z + b.z⟩

def sub (a b : Vec3) : Vec3 := ⟨a.x - b.x, a.y - b.y, a.z - b.z⟩

def negV (a : Vec3) : Vec3 := ⟨-a.x, -a.y, -a.z⟩

def smul (c : ℝ) (a : Vec3) : Vec3 := ⟨c * a.x, c * a.y, c * a.z⟩

instance : Add Vec3 := ⟨Vec3.add⟩

instance : Sub Vec3 := ⟨Vec3.sub⟩

instance : Neg Vec3 := ⟨Vec3.negV⟩

instance : SMul ℝ Vec3 := ⟨Vec3.smul⟩

instance : Zero Vec3 := ⟨⟨0, 0, 0⟩⟩

/-- The dot product of the repository's `Product` capability. -/
def dot (a b : Vec3) : ℝ := a.x * b.x + a.y * b.y + a.z * b.z

/-- Source `norm_squared`. -/
def normSq (a : Vec3) : ℝ := a.dot a

/-- The euclidean norm of a vector. -/
noncomputable def norm (a : Vec3) : ℝ := Real.sqrt a.normSq

@[simp] lemma add_def (a b : Vec3) :
    a + b = ⟨a.x + b.x, a.y + b.y, a.z + b.z⟩ := rfl

@[simp] lemma sub_def (a b : Vec3) :
    a - b = ⟨a.x - b.x, a.y - b.y, a.z - b.z⟩ := rfl

@[simp] lemma neg_def (a : Vec3) : -a = ⟨-a.x, -a.y, -a.z⟩ := rfl

@[simp] lemma smul_def (c : ℝ) (a : Vec3) :
    c • a = ⟨c * a.x, c * a.y, c * a.z⟩ := rfl

@[simp] lemma zero_def : (0 : Vec3) = ⟨0, 0, 0⟩ := rfl

@[simp] lemma mk_x (a b c : ℝ) : (Vec3.mk a b c).x = a := rfl

@[simp] lemma mk_y (a b c : ℝ) : (Vec3.mk a b c).y = b := rfl

@[simp] lemma mk_z (a b c : ℝ) : (Vec3.mk a b c).z = c := rfl

lemma dot_def (a b : Vec3) :
    a.dot b = a.x * b.x + a.y * b.y + a.z * b.z := rfl

lemma normSq_def (a : Vec3) :
    a.normSq = a.x * a.x + a.y * a.y + a.z * a.z := rfl

lemma normSq_zero : (0 : Vec3).normSq = 0 := by
  simp only [zero_def, normSq_def, mk_x, mk_y, mk_z]
  norm_num

lemma normSq_nonneg (a : Vec3) : 0 ≤ a.normSq := by
  simp only [normSq_def]
  nlinarith [sq_nonneg a.x, sq_nonneg a.y, sq_nonneg a.z]

lemma normSq_eq_zero_iff (a : Vec3) : a.normSq = 0 ↔ a = 0 := by
  constructor
  · intro h
    have hx : a.x = 0 ∧ a.y = 0 ∧ a.z = 0 := by
      simp only [normSq_def] at h
      refine ⟨?_, ?_, ?_⟩ <;> nlinarith [sq_nonneg a.x, sq_nonneg a.y, sq_nonneg a.z]
    ext <;> simp [hx.1, hx.2.1, hx.2.2]
  · intro h
    subst h
    simp [normSq_def]

lemma normSq_pos_of_ne_zero {a : Vec3} (h : a ≠ 0) : 0 < a.normSq := by
  rcases lt_or_eq_of_le (normSq_nonneg a) with hlt | heq
  · exact hlt
  · exact absurd ((normSq_eq_zero_iff a).mp heq.symm) h

lemma norm_pos_of_ne_zero {a : Vec3} (h : a ≠ 0) : 0 < a.norm :=
  Real.sqrt_pos.mpr (normSq_pos_of_ne_zero h)

lemma norm_sq_eq_normSq (a : Vec3) : a.norm * a.norm = a.normSq :=
  Real.mul_self_sqrt (normSq_nonneg a)

lemma normSq_smul (c : ℝ) (a : Vec3) : (c • a).normSq = c ^ 2 * a.normSq := by
  simp only [smul_def, normSq_def]
  ring

lemma dot_comm (a b : Vec3) : a.dot b = b.dot a := by
  simp only [dot_def]
  ring

lemma add_dot (a b c : Vec3) : (a + b).dot c = a.dot c + b.dot c := by
  simp only [add_def, dot_def]
  ring

lemma smul_dot (r : ℝ) (a b : Vec3) : (r • a).dot b = r * a.dot b := by
  simp only [smul_def, dot_def]
  ring

lemma dot_smul (r : ℝ) (a b : Vec3) : a.dot (r • b) = r * a.dot b := by
  simp only [smul_def, dot_def]
  ring

lemma normSq_add (a b : Vec3) :
    (a + b).normSq = a.normSq + 2 * a.dot b + b.normSq := by
  simp only [add_def, normSq_def, dot_def]
  ring

lemma sub_dot (a b c : Vec3) : (a - b).dot c = a.dot c - b.dot c := by
  simp only [sub_def, dot_def]
  ring

lemma dot_sq_le_normSq_mul (a b : Vec3) :
    (a.dot b) ^ 2 ≤ a.normSq * b.normSq := by
  simp only [dot_def, normSq_def]
  nlinarith [sq_nonneg (a.x * b.y - a.y * b.x), sq_nonneg (a.x * b.z - a.z * b.x),
    sq_nonneg (a.y * b.z - a.z * b.y)]

lemma normSq_sub (a b : Vec3) :
    (a - b).normSq = a.normSq - 2 * a.dot b + b.normSq := by
  simp only [sub_def, normSq_def, dot_def]
  ring

lemma dot_neg (a b : Vec3) : a.dot (-b) = -(a.dot b) := by
  simp only [neg_def, dot_def]
  ring

lemma normSq_neg (a : Vec3) : (-a).normSq = a.normSq := by
  simp only [neg_def, normSq_def]
  ring

end Vec3

/-- Modelled from the spec: `UnitVector` carries the invariant that its norm is
`1`, equivalently that its squared norm is `1`. -/
def UnitVector := { v : Vec3 // v.normSq = 1 }

namespace UnitVector

lemma normSq_val (u : UnitVector) : u.val.normSq = 1 := u.property

/-- Source `UnitVector::x_direction()`. -/
def xDirection : UnitVector :=
  ⟨⟨1, 0, 0⟩, by simp [Vec3.normSq_def]⟩

/-- Source `UnitVector::y_direction()`. -/
def yDirection : UnitVector :=
  ⟨⟨0, 1, 0⟩, by simp [Vec3.normSq_def]⟩

/-- Source `UnitVector::z_direction()`. -/
def zDirection : UnitVector :=
  ⟨⟨0, 0, 1⟩, by simp [Vec3.normSq_def]⟩

/-- Negation of a unit vector (`-normal` in the source). -/
def negU (u : UnitVector) : UnitVector :=
  ⟨-u.val, by simpa [Vec3.normSq_def] using u.property⟩

instance : Neg UnitVector := ⟨UnitVector.negU⟩

@[simp] lemma neg_val (u : UnitVector) : (-u).val = -u.val := rfl

lemma abs_dot_le_one (d n : UnitVector) : |d.val.dot n.val| ≤ 1 := by
  have h := Vec3.dot_sq_le_normSq_mul d.val n.val
  rw [d.property, n.property] at h
  nlinarith [sq_abs (d.val.dot n.val), abs_nonneg (d.val.dot n.val)]

end UnitVector

namespace Vec3

/-- Modelled from the spec: `Vector::normalize` fails exactly on a zero-length
vector and otherwise returns the rescaled unit vector. -/
noncomputable def normalize (v : Vec3) : Option UnitVector :=
  if h : v = 0 then none
  else
    some ⟨v.norm⁻¹ • v, by
      rw [normSq_smul]
      have hpos := normSq_pos_of_ne_zero h
      rw [inv_pow, sq, norm_sq_eq_normSq]
      field_simp⟩

@[simp] lemma normalize_zero : (0 : Vec3).normalize = none := by
  simp [normalize]

lemma normalize_of_ne_zero {v : Vec3} (h : v ≠ 0) :
    ∃ u : UnitVector, v.normalize = some u ∧ u.val = v.norm⁻¹ • v := by
  rw [normalize, dif_neg h]
  exact ⟨_, rfl, rfl⟩

lemma normalize_eq_some_elim {v : Vec3} {u : UnitVector}
    (h : v.normalize = some u) : v ≠ 0 ∧ u.val = v.norm⁻¹ • v := by
  by_cases hz : v = 0
  · subst hz; simp [normalize] at h
  · obtain ⟨u₀, hu₀, hval⟩ := normalize_of_ne_zero hz
    rw [hu₀] at h
    exact ⟨hz, by rw [← Option.some_inj.mp h]; exact hval⟩

lemma normalize_of_normSq_one {v : Vec3} (h : v.normSq = 1) :
    v.normalize = some ⟨v, h⟩ := by
  have hz : v ≠ 0 := by
    intro hv
    rw [hv] at h
    simp [Vec3.normSq_def] at h
  obtain ⟨u, hu, hval⟩ := normalize_of_ne_zero hz
  rw [hu]
  congr 1
  apply Subtype.ext
  rw [hval]
  have hn : v.norm = 1 := by
    have hm : v.norm * v.norm = 1 := by rw [norm_sq_eq_normSq, h]
    have h0 : 0 ≤ v.norm := Real.sqrt_nonneg _
    rcases mul_self_eq_one_iff.mp hm with h1 | h1
    · exact h1
    · exfalso
      rw [h1] at h0
      norm_num at h0
  rw [hn]
  ext <;> simp

end Vec3

/-- Modelled from the spec: `Color` is out of scope beyond basic vector
operations; `Color::to_vector` views it as a 3-component vector, so it is
modelled by `Vec3` directly. -/
abbrev Color := Vec3

/-- Source `Color::to_vector`. -/
def Color.toVector (c : Color) : Vec3 := c

/-- Modelled from the spec: the componentwise product used for
`coefficient * radiance` (a coefficient vector applied to a color). -/
def Vec3.mulV (a b : Vec3) : Vec3 := ⟨a.x * b.x, a.y * b.y, a.z * b.z⟩

/-- Source `SurfaceSide`: which face of the surface the ray struck. -/
inductive SurfaceSide where
  | Front : SurfaceSide
  | Back : SurfaceSide
deriving DecidableEq

/-- Source `Ray`: origin plus unit direction. -/
structure Ray where
  start : Vec3
  direction : UnitVector

/-- Source `Ray::at(distance)` computes `origin + distance * direction`. -/
def Ray.at (r : Ray) (distance : ℝ) : Vec3 :=
  r.start + distance • r.direction.val

/-- Source `RayIntersection`: hit distance, world position, oriented unit normal and
the struck side. -/
structure RayIntersection where
  distance : ℝ
  position : Vec3
  normal : UnitVector
  side : SurfaceSide

/-- Modelled from the spec: `DisRange` (source `math/numeric`, not under
`src/`) is an interval of allowed hit distances along a ray; the sources only
use membership testing and the all-positive-distances instance, so it is
modelled by its membership predicate. -/
structure DisRange where
  mem : ℝ → Prop

/-- Source `DisRange::positive()`: all strictly positive distances. -/
def DisRange.positive : DisRange := ⟨fun d => 0 < d⟩

/-- Source `ShapeKind` (only the kinds visible in the sources). -/
inductive ShapeKind where
  | Plane : ShapeKind
  | Sphere : ShapeKind
deriving DecidableEq

/-- Source `ShapeId`: a kind tag plus an index. -/
structure ShapeId where
  kind : ShapeKind
  index : ℕ
deriving DecidableEq

/-- The mirror-reflection direction `dir - 2 * dir.dot(normal) * normal`
appearing verbatim in `Specular::calc_next_ray` and
`Refractive::calc_next_reflective_ray`. -/
def reflectVec (dir normal : Vec3) : Vec3 :=
  dir - (2 * dir.dot normal) • normal

lemma reflectVec_normSq (dir normal : Vec3) (hd : dir.normSq = 1)
    (hn : normal.normSq = 1) : (reflectVec dir normal).normSq = 1 := by
  simp only [reflectVec, Vec3.normSq_def, Vec3.dot_def, Vec3.sub_def,
    Vec3.smul_def, Vec3.mk_x, Vec3.mk_y, Vec3.mk_z] at hd hn ⊢
  nlinarith [hd, hn, sq_nonneg (dir.x * normal.x + dir.y * normal.y + dir.z * normal.z)]

lemma reflectVec_dot_normal (dir normal : Vec3) (hn : normal.normSq = 1) :
    (reflectVec dir normal).dot normal = -(dir.dot normal) := by
  simp only [reflectVec, Vec3.normSq_def, Vec3.dot_def, Vec3.sub_def,
    Vec3.smul_def, Vec3.mk_x, Vec3.mk_y, Vec3.mk_z] at hn ⊢
  linear_combination
    (-2 * (dir.x * normal.x + dir.y * normal.y + dir.z * normal.z)) * hn

/-- Source `Plane` of `shape/primitive/plane.rs`. -/
structure Plane where
  point : Vec3
  normal : UnitVector

namespace Plane

/-- Source `Plane::calc_ray_intersection`. -/
noncomputable def calcRayIntersection (ray : Ray) (range : DisRange)
    (point : Vec3) (normal : UnitVector) : Option RayIntersection :=
  let den := ray.direction.val.dot normal.val
  if den ≠ 0 then
    let num := (point - ray.start).dot normal.val
    let distance := num / den
    if distance > 0 ∧ range.mem distance then
      let position := ray.at distance
      let ns := if den < 0 then (normal, SurfaceSide.Front)
        else (-normal, SurfaceSide.Back)
      some ⟨distance, position, ns.1, ns.2⟩
    else none
  else none

/-- Source `Plane::hit` (the `Shape` impl). -/
noncomputable def hit (p : Plane) (ray : Ray) (range : DisRange) :
    Option RayIntersection :=
  calcRayIntersection ray range p.point p.normal

/-- The denominator `den = ray.direction.dot(normal)` of
`Plane::calc_ray_intersection` (a named copy of the source's local). -/
noncomputable def den (p : Plane) (ray : Ray) : ℝ :=
  ray.direction.val.dot p.normal.val

/-- The hit distance `num / den` of `Plane::calc_ray_intersection` (a named
copy of the source's local). -/
noncomputable def dis (p : Plane) (ray : Ray) : ℝ :=
  (p.point - ray.start).dot p.normal.val / p.den ray

end Plane

/-- Source `CoefSample`: outgoing ray, radiance coefficient and pdf. -/
structure CoefSample where
  ray : Ray
  coefficient : Vec3
  pdf : ℝ

/-- Source `Specular` of `material/primitive/specular.rs`. -/
structure Specular where
  color : Color

namespace Specular

/-- Source `Specular::calc_next_ray`; the source `expect`s that the reflected
direction normalizes, so a failed normalization (a panic) is `none`. -/
noncomputable def calcNextRay (s : Specular) (ray : Ray)
    (isect : RayIntersection) : Option Ray :=
  (reflectVec ray.direction.val isect.normal.val).normalize.map
    fun d => ⟨isect.position, d⟩

/-- Source `Specular::bsdf` is `unimplemented!`: it fails (panics) on every input,
modelled as the constantly-`none` function. -/
def bsdf (s : Specular) (ray : Ray) (isect : RayIntersection)
    (rayNext : Ray) : Option Vec3 := none

/-- Source `Specular::coef_pdf` is the constant `1`. -/
def coefPdf (s : Specular) (ray : Ray) (isect : RayIntersection)
    (rayNext : Ray) : ℝ := 1

/-- Source `Specular::coef_sample`; the rng argument is unused by the source. -/
noncomputable def coefSample (s : Specular) (ray : Ray)
    (isect : RayIntersection) : Option CoefSample :=
  (s.calcNextRay ray isect).map
    fun direction => ⟨direction, s.color.toVector, s.coefPdf ray isect direction⟩

/-- Source `Specular::shade`: draws one coefficient sample and recursively traces the
sampled ray. The renderer's `trace` entry point (an external collaborator per
the spec) is passed in as a function. -/
noncomputable def shade (trace : Ray → DisRange → ℕ → Color) (s : Specular)
    (ray : Ray) (isect : RayIntersection) (depth : ℕ) : Option Color :=
  (s.coefSample ray isect).map
    fun sample =>
      Vec3.mulV sample.coefficient (trace sample.ray DisRange.positive (depth + 1))

end Specular

/-- Source `TryNewRefractiveError` of `material/primitive/refractive.rs`. -/
inductive TryNewRefractiveError where
  | InvalidRefractiveIndex : TryNewRefractiveError
deriving DecidableEq

/-- Source `Refractive` of `material/primitive/refractive.rs`. The positivity of the
index, validated by `Refractive::new`, is carried as an invariant. -/
structure Refractive where
  color : Color
  refractive_index : ℝ
  index_pos : 0 < refractive_index

namespace Refractive

/-- Source `Refractive::new`: `ensure!(refractive_index > 0)` else the typed error. -/
noncomputable def new (color : Color) (refractive_index : ℝ) :
    Except TryNewRefractiveError Refractive :=
  if h : refractive_index > 0 then Except.ok ⟨color, refractive_index, h⟩
  else Except.error TryNewRefractiveError.InvalidRefractiveIndex

/-- Source `Refractive::calc_next_reflective_ray` (same body as
`Specular::calc_next_ray`). -/
noncomputable def calcNextReflectiveRay (m : Refractive) (ray : Ray)
    (isect : RayIntersection) : Option Ray :=
  (reflectVec ray.direction.val isect.normal.val).normalize.map
    fun d => ⟨isect.position, d⟩

/-- Source `Refractive::calc_next_refractive_direction`. The source returns
`Option<Ray>` with `None` on total internal reflection and panics (`expect`)
if the refracted direction fails to normalize, hence the nested option here:
outer `none` is the panic, `some none` is total internal reflection. -/
noncomputable def calcNextRefractiveDirection (m : Refractive) (ray : Ray)
    (isect : RayIntersection) (cos_i ri : ℝ) : Option (Option Ray) :=
  let normal := isect.normal.val
  let dirInci := ray.direction.val
  let dirRefrPerp := ri⁻¹ • (dirInci + cos_i • normal)
  let tmp := 1 - dirRefrPerp.normSq
  if tmp < 0 then some none
  else
    let dirRefrPara := (-Real.sqrt tmp) • normal
    match (dirRefrPara + dirRefrPerp).normalize with
    | none => none
    | some dirRefr => some (some ⟨isect.position, dirRefr⟩)

/-- Source `Refractive::calc_reflectance` (Schlick's approximation). -/
noncomputable def calcReflectance (m : Refractive) (cos_i refractive_index : ℝ) : ℝ :=
  let r0Sqrt := (1 - refractive_index) / (1 + refractive_index)
  let r0 := r0Sqrt * r0Sqrt
  r0 + (1 - r0) * (1 - cos_i) ^ 5

/-- Source `Refractive::calc_next_ray`: Fresnel-weighted branch between reflection
and refraction; `none` models a panic inside a branch. -/
noncomputable def calcNextRay (m : Refractive) (ray : Ray)
    (isect : RayIntersection) (reflection_determination : ℝ) : Option Ray :=
  let cos_i := |ray.direction.val.dot isect.normal.val|
  let ri := if isect.side = SurfaceSide.Front then m.refractive_index
    else m.refractive_index⁻¹
  let reflectance := m.calcReflectance cos_i ri
  if reflection_determination < reflectance then
    m.calcNextReflectiveRay ray isect
  else
    match m.calcNextRefractiveDirection ray isect cos_i ri with
    | some (some r) => some r
    | some none => m.calcNextReflectiveRay ray isect
    | none => none

/-- Source `Refractive::bsdf` is `unimplemented!`: it fails (panics) on every input. -/
def bsdf (m : Refractive) (ray : Ray) (isect : RayIntersection)
    (rayNext : Ray) : Option Vec3 := none

/-- Source `Refractive::coef_pdf` is the constant `1`. -/
def coefPdf (m : Refractive) (ray : Ray) (isect : RayIntersection)
    (rayNext : Ray) : ℝ := 1

/-- Source `Refractive::coef_sample`; `u` is the single uniform draw
`Val(rng.random())`. -/
noncomputable def coefSample (m : Refractive) (ray : Ray)
    (isect : RayIntersection) (u : ℝ) : Option CoefSample :=
  (m.calcNextRay ray isect u).map
    fun direction => ⟨direction, m.color.toVector, m.coefPdf ray isect direction⟩

/-- Source `Refractive::shade`: one coefficient sample, one recursive trace. -/
noncomputable def shade (trace : Ray → DisRange → ℕ → Color) (m : Refractive)
    (ray : Ray) (isect : RayIntersection) (depth : ℕ) (u : ℝ) : Option Color :=
  (m.coefSample ray isect u).map
    fun sample =>
      Vec3.mulV sample.coefficient (trace sample.ray DisRange.positive (depth + 1))

end Refractive

/-- Modelled from the spec: `Sphere` (source `shape/primitive/sphere.rs`, not
under `src/`) owns a center and a radius, with `radius > 0` validated at
construction and carried here as an invariant. -/
structure Sphere where
  center : Vec3
  radius : ℝ
  radius_pos : 0 < radius

/-- The closed set of shape variants visible in the sources, used to model the
`&dyn Shape` return of `LightSampling::shape`. -/
inductive ShapeObj where
  | ofPlane : Plane → ShapeObj
  | ofSphere : Sphere → ShapeObj

/-- The `&dyn Material` view a light sampler receives: only `bsdf` is invoked
on it, and `bsdf` may fail (`none` models the panic of a Dirac material). -/
structure MaterialDyn where
  bsdf : Ray → RayIntersection → Ray → Option Vec3

/-- Source `LightSample`: outgoing ray, radiance coefficient, pdf and the sampled
shape's id. -/
structure LightSample where
  ray : Ray
  coefficient : Vec3
  pdf : ℝ
  id : ShapeId

/-- Modelled from the spec: `Rotation::new(from, to, roll)` (source
`math/geometry`, not under `src/`) yields "a rotation that maps one unit
vector to another"; the sampler instantiates it with `from = +z` and
`roll = 0`. The transform is modelled as an explicit linear isometry carrying
`+z` to `g`: the composition of the reflection through the plane `z = 0` with
the reflection through the plane orthogonal to `e_z + g` (two reflections, so
a rotation), the antipodal case `g = -e_z` being the half-turn about the
x-axis. -/
noncomputable def rotateZTo (g : Vec3) (w : Vec3) : Vec3 :=
  if g = ⟨0, 0, -1⟩ then ⟨w.x, -w.y, -w.z⟩
  else
    (⟨w.x, w.y, -w.z⟩ : Vec3) -
      ((2 * Vec3.dot ⟨w.x, w.y, -w.z⟩ ⟨g.x, g.y, 1 + g.z⟩) /
          Vec3.normSq ⟨g.x, g.y, 1 + g.z⟩) • (⟨g.x, g.y, 1 + g.z⟩ : Vec3)

lemma rotateZTo_one_add_z_pos {g : Vec3} (hg : g.normSq = 1)
    (hne : g ≠ ⟨0, 0, -1⟩) : 0 < 1 + g.z := by
  simp only [Vec3.normSq_def] at hg
  rcases lt_or_le (-1) g.z with h | h
  · linarith
  · exfalso
    have hz1 : g.z ≤ -1 := h
    have hzsq : g.z * g.z ≤ 1 := by nlinarith [sq_nonneg g.x, sq_nonneg g.y]
    have hz : g.z = -1 := by nlinarith
    have hx : g.x = 0 := by nlinarith [sq_nonneg g.y]
    have hy : g.y = 0 := by nlinarith [sq_nonneg g.x]
    exact hne (by ext <;> simp [hx, hy, hz])

lemma rotateZTo_mNormSq {g : Vec3} (hg : g.normSq = 1) :
    Vec3.normSq ⟨g.x, g.y, 1 + g.z⟩ = 2 * (1 + g.z) := by
  simp only [Vec3.normSq_def, Vec3.mk_x, Vec3.mk_y, Vec3.mk_z] at hg ⊢
  linear_combination hg

/-- The modelled rotation indeed maps `+z` to `g`. -/
lemma rotateZTo_zDir {g : Vec3} (hg : g.normSq = 1) :
    rotateZTo g ⟨0, 0, 1⟩ = g := by
  rw [rotateZTo]
  by_cases hne : g = (⟨0, 0, -1⟩ : Vec3)
  · rw [if_pos hne, hne]
    ext <;> norm_num
  · rw [if_neg hne, rotateZTo_mNormSq hg]
    have hpos := rotateZTo_one_add_z_pos hg hne
    have h2 : (2 : ℝ) * (1 + g.z) ≠ 0 := by positivity
    simp only [Vec3.normSq_def] at hg
    simp only [Vec3.dot_def, Vec3.smul_def, Vec3.sub_def, Vec3.mk_x, Vec3.mk_y,
      Vec3.mk_z]
    ext <;> simp only [Vec3.mk_x, Vec3.mk_y, Vec3.mk_z] <;> field_simp <;>
      ring

/-- Isometry: the modelled rotation preserves squared norms. -/
lemma rotateZTo_normSq {g : Vec3} (hg : g.normSq = 1) (w : Vec3) :
    (rotateZTo g w).normSq = w.normSq := by
  rw [rotateZTo]
  by_cases hne : g = (⟨0, 0, -1⟩ : Vec3)
  · rw [if_pos hne]
    simp only [Vec3.normSq_def, Vec3.mk_x, Vec3.mk_y, Vec3.mk_z]
    ring
  · rw [if_neg hne]
    have hpos := rotateZTo_one_add_z_pos hg hne
    have hM := rotateZTo_mNormSq hg
    have hMne : Vec3.normSq ⟨g.x, g.y, 1 + g.z⟩ ≠ 0 := by
      rw [hM]; positivity
    rw [Vec3.normSq_sub, Vec3.dot_smul, Vec3.normSq_smul]
    have hvw : Vec3.normSq ⟨w.x, w.y, -w.z⟩ = w.normSq := by
      simp only [Vec3.normSq_def, Vec3.mk_x, Vec3.mk_y, Vec3.mk_z]
      ring
    rw [hvw]
    field_simp
    ring

/-- The component of a rotated vector along the target axis equals the
original z-component. -/
lemma rotateZTo_dot_axis {g : Vec3} (hg : g.normSq = 1) (w : Vec3) :
    (rotateZTo g w).dot g = w.z := by
  rw [rotateZTo]
  by_cases hne : g = (⟨0, 0, -1⟩ : Vec3)
  · rw [if_pos hne, hne]
    simp only [Vec3.dot_def, Vec3.mk_x, Vec3.mk_y, Vec3.mk_z]
    ring
  · rw [if_neg hne]
    have hpos := rotateZTo_one_add_z_pos hg hne
    have hM := rotateZTo_mNormSq hg
    rw [Vec3.sub_dot, Vec3.smul_dot, hM]
    have hmg : Vec3.dot ⟨g.x, g.y, 1 + g.z⟩ g = 1 + g.z := by
      simp only [Vec3.normSq_def] at hg
      simp only [Vec3.dot_def, Vec3.mk_x, Vec3.mk_y, Vec3.mk_z]
      linear_combination hg
    rw [hmg]
    have h2 : (1 : ℝ) + g.z ≠ 0 := by positivity
    simp only [Vec3.dot_def, Vec3.mk_x, Vec3.mk_y, Vec3.mk_z]
    field_simp
    ring

/-- Source `SphereSampler` of `ray/sampling/sphere.rs`. -/
structure SphereSampler where
  id : ShapeId
  shape : Sphere

namespace SphereSampler

/-- The body of `SphereSampler::light_sample` after the cone axis
`global_dir` has been computed; `u₁` and `u₂` are the two uniform draws
`rng.random()`. The result is doubly optional: the outer `none` models a panic
(the material's `bsdf` panicking), `some none` the source's `None` (no usable
sample). -/
noncomputable def lightSampleAux (s : SphereSampler) (ray : Ray)
    (isect : RayIntersection) (material : MaterialDyn) (u₁ u₂ : ℝ)
    (globalDir : UnitVector) : Option (Option LightSample) :=
  let radius2 := s.shape.radius ^ 2
  let toCenter := s.shape.center - isect.position
  let cosMaxHalfConeAngle := Real.sqrt (1 - radius2 / toCenter.normSq)
  let r1TwoPi := u₁ * 2 * Real.pi
  let z := 1 + u₂ * (cosMaxHalfConeAngle - 1)
  let tmp := Real.sqrt (1 - z ^ 2)
  let x := Real.cos r1TwoPi * tmp
  let y := Real.sin r1TwoPi * tmp
  let localAtSphere := s.shape.radius • (⟨x, y, z⟩ : Vec3)
  let atSphere := rotateZTo globalDir.val localAtSphere
  match (toCenter + atSphere).normalize with
  | none => some none
  | some direction =>
    let rayNext : Ray := ⟨isect.position, direction⟩
    match material.bsdf ray isect rayNext with
    | none => none
    | some bsdf =>
      if bsdf.normSq ≠ 0 then
        let cos := direction.val.dot isect.normal.val
        let solidAngle := 2 * Real.pi * (1 - cosMaxHalfConeAngle)
        let pdf := solidAngle⁻¹
        let coefficient := (cos / pdf) • bsdf
        some (some ⟨rayNext, coefficient, pdf, s.id⟩)
      else some none

/-- Source `SphereSampler::light_sample`: the cone axis is
`-to_center.normalize().unwrap_or(z_direction)`. -/
noncomputable def lightSample (s : SphereSampler) (ray : Ray)
    (isect : RayIntersection) (material : MaterialDyn) (u₁ u₂ : ℝ) :
    Option (Option LightSample) :=
  let toCenter := s.shape.center - isect.position
  s.lightSampleAux ray isect material u₁ u₂
    (-(toCenter.normalize.getD UnitVector.zDirection))

/-- Source `SphereSampler::light_pdf`; the source `unwrap`s the normalization of
`to_center`, so `none` models that panic. -/
noncomputable def lightPdf (s : SphereSampler) (isect : RayIntersection)
    (rayNext : Ray) : Option ℝ :=
  let radius2 := s.shape.radius ^ 2
  let toCenter := s.shape.center - isect.position
  let cosMaxHalfConeAngle := Real.sqrt (1 - radius2 / toCenter.normSq)
  match toCenter.normalize with
  | none => none
  | some u =>
    let cosRayCenter := rayNext.direction.val.dot u.val
    if cosRayCenter ≥ cosMaxHalfConeAngle then
      some (2 * Real.pi * (1 - cosMaxHalfConeAngle))⁻¹
    else some 0

end SphereSampler

/-- Source `EmptySampler` of `ray/sampling/empty.rs`: the "no light source" sampler.
None of its methods can panic, so they are modelled as total functions. -/
structure EmptySampler where

namespace EmptySampler

/-- Source `EmptySampler::id` (the `LightSampling` impl). -/
def idOf (e : EmptySampler) : Option ShapeId := none

/-- Source `EmptySampler::shape`. -/
def shapeOf (e : EmptySampler) : Option ShapeObj := none

/-- Source `EmptySampler::light_sample` is constantly `None` (no sample selected). -/
def lightSample (e : EmptySampler) (ray : Ray) (isect : RayIntersection)
    (material : MaterialDyn) (u₁ u₂ : ℝ) : Option LightSample := none

/-- Source `EmptySampler::light_pdf` is constantly `0`. -/
def lightPdf (e : EmptySampler) (isect : RayIntersection) (rayNext : Ray) :
    ℝ := 0

end EmptySampler

/-! ## Claim theorems -/

/-- Claim C9: for every unit-length incoming direction and unit-length surface
normal, the reflected direction `dir - 2 (dir.dot normal) normal` re-normalizes
successfully to a unit vector (itself), and it satisfies
`reflect(dir, normal).dot normal = -(dir.dot normal)`. -/
theorem reflect_unit_and_angle (d n : UnitVector) :
    ∃ u : UnitVector,
      (reflectVec d.val n.val).normalize = some u ∧
      u.val = reflectVec d.val n.val ∧
      u.val.dot n.val = -(d.val.dot n.val) := by
  have h1 := reflectVec_normSq d.val n.val d.property n.property
  exact ⟨⟨reflectVec d.val n.val, h1⟩, Vec3.normalize_of_normSq_one h1, rfl,
    reflectVec_dot_normal d.val n.val n.property⟩

/-- Claim C7: `Specular::bsdf` and `Refractive::bsdf` fail unconditionally
(`unimplemented!`, modelled as `none`); they never return a numeric vector. -/
theorem dirac_bsdf_always_fails (s : Specular) (m : Refractive) (ray : Ray)
    (isect : RayIntersection) (rayNext : Ray) :
    s.bsdf ray isect rayNext = none ∧ m.bsdf ray isect rayNext = none :=
  ⟨rfl, rfl⟩

/-- Claim C10: `EmptySampler::light_sample` always returns `None`,
`EmptySampler::light_pdf` always returns `0`, and its `id()` and `shape()`
both return `None`. -/
theorem empty_sampler_trivial (e : EmptySampler) (ray : Ray)
    (isect : RayIntersection) (material : MaterialDyn) (u₁ u₂ : ℝ)
    (rayNext : Ray) :
    e.lightSample ray isect material u₁ u₂ = none ∧
    e.lightPdf isect rayNext = 0 ∧
    e.idOf = none ∧ e.shapeOf = none :=
  ⟨rfl, rfl, rfl, rfl⟩

/-- Claim C8: `Refractive::new(color, k)` returns `Ok` with the constructed
material exactly when `k > 0`, and the typed `InvalidRefractiveIndex` error
when `k ≤ 0`. -/
theorem refractive_new_validates (c : Color) (k : ℝ) :
    (∀ h : 0 < k, Refractive.new c k = Except.ok ⟨c, k, h⟩) ∧
    (k ≤ 0 → Refractive.new c k =
      Except.error TryNewRefractiveError.InvalidRefractiveIndex) := by
  constructor
  · intro h
    rw [Refractive.new, dif_pos h]
  · intro h
    rw [Refractive.new, dif_neg (not_lt.mpr h)]

/-- Witness for C8 at the concrete indices `2` (valid) and `-1` (invalid). -/
theorem refractive_new_validates_witness :
    Refractive.new ⟨1, 1, 1⟩ 2 = Except.ok ⟨⟨1, 1, 1⟩, 2, by norm_num⟩ ∧
    Refractive.new ⟨1, 1, 1⟩ (-1) =
      Except.error TryNewRefractiveError.InvalidRefractiveIndex :=
  ⟨(refractive_new_validates ⟨1, 1, 1⟩ 2).1 (by norm_num),
    (refractive_new_validates ⟨1, 1, 1⟩ (-1)).2 (by norm_num)⟩

/-- Claim C2: whenever the refraction branch is selected
(`reflection_determination ≥ reflectance`) and the computed
`tmp = 1 - ‖perpendicular component‖²` is negative (total internal
reflection), `Refractive::calc_next_ray` returns exactly the mirror-reflection
ray from the intersection position; no refracted ray is produced. -/
theorem refractive_total_internal_reflection (m : Refractive) (ray : Ray)
    (isect : RayIntersection) (t : ℝ)
    (hsel : m.calcReflectance |ray.direction.val.dot isect.normal.val|
        (if isect.side = SurfaceSide.Front then m.refractive_index
          else m.refractive_index⁻¹) ≤ t)
    (htir : 1 - ((if isect.side = SurfaceSide.Front then m.refractive_index
            else m.refractive_index⁻¹)⁻¹ •
          (ray.direction.val +
            |ray.direction.val.dot isect.normal.val| • isect.normal.val)).normSq
        < 0) :
    m.calcNextRay ray isect t = m.calcNextReflectiveRay ray isect ∧
    ∃ u : UnitVector,
      (reflectVec ray.direction.val isect.normal.val).normalize = some u ∧
      m.calcNextReflectiveRay ray isect = some ⟨isect.position, u⟩ := by
  constructor
  · have hrd : m.calcNextRefractiveDirection ray isect
        |ray.direction.val.dot isect.normal.val|
        (if isect.side = SurfaceSide.Front then m.refractive_index
          else m.refractive_index⁻¹) = some none := by
      rw [Refractive.calcNextRefractiveDirection]
      rw [if_pos htir]
    rw [Refractive.calcNextRay]
    rw [if_neg (not_lt.mpr hsel), hrd]
  · have h1 := reflectVec_normSq ray.direction.val isect.normal.val
      ray.direction.property isect.normal.property
    refine ⟨⟨reflectVec ray.direction.val isect.normal.val, h1⟩,
      Vec3.normalize_of_normSq_one h1, ?_⟩
    rw [Refractive.calcNextReflectiveRay, Vec3.normalize_of_normSq_one h1]
    rfl

/-- Claim C5: with `reflection_determination = 0` and the computed Schlick
reflectance in `(0,1)`, `Refractive::calc_next_ray` takes the reflective
branch; the computed reflectance never exceeds `1`, so with
`reflection_determination = 1` (or any value at least the reflectance) the
refraction branch is attempted first and reflection happens only when the
refraction attempt reports total internal reflection. -/
theorem refractive_branch_selection (m : Refractive) (ray : Ray)
    (isect : RayIntersection) :
    (0 < m.calcReflectance |ray.direction.val.dot isect.normal.val|
        (if isect.side = SurfaceSide.Front then m.refractive_index
          else m.refractive_index⁻¹) →
      m.calcNextRay ray isect 0 = m.calcNextReflectiveRay ray isect) ∧
    m.calcReflectance |ray.direction.val.dot isect.normal.val|
        (if isect.side = SurfaceSide.Front then m.refractive_index
          else m.refractive_index⁻¹) ≤ 1 ∧
    (∀ t, m.calcReflectance |ray.direction.val.dot isect.normal.val|
        (if isect.side = SurfaceSide.Front then m.refractive_index
          else m.refractive_index⁻¹) ≤ t →
      (∀ r, m.calcNextRefractiveDirection ray isect
          |ray.direction.val.dot isect.normal.val|
          (if isect.side = SurfaceSide.Front then m.refractive_index
            else m.refractive_index⁻¹) = some (some r) →
        m.calcNextRay ray isect t = some r) ∧
      (m.calcNextRefractiveDirection ray isect
          |ray.direction.val.dot isect.normal.val|
          (if isect.side = SurfaceSide.Front then m.refractive_index
            else m.refractive_index⁻¹) = some none →
        m.calcNextRay ray isect t = m.calcNextReflectiveRay ray isect)) := by
  refine ⟨?_, ?_, ?_⟩
  · intro h0
    rw [Refractive.calcNextRay, if_pos h0]
  · have hc0 : (0 : ℝ) ≤ |ray.direction.val.dot isect.normal.val| :=
      abs_nonneg _
    have hc1 := UnitVector.abs_dot_le_one ray.direction isect.normal
    have hk : 0 < (if isect.side = SurfaceSide.Front then m.refractive_index
        else m.refractive_index⁻¹) := by
      by_cases hside : isect.side = SurfaceSide.Front
      · rw [if_pos hside]; exact m.index_pos
      · rw [if_neg hside]; exact inv_pos.mpr m.index_pos
    set c := |ray.direction.val.dot isect.normal.val| with hc
    set k := (if isect.side = SurfaceSide.Front then m.refractive_index
      else m.refractive_index⁻¹) with hkdef
    rw [Refractive.calcReflectance]
    have hA : ((1 - k) / (1 + k)) * ((1 - k) / (1 + k)) < 1 := by
      rw [div_mul_div_comm, div_lt_one (by nlinarith)]
      nlinarith
    have h5a : (1 - c) ^ 5 ≤ 1 := by
      apply pow_le_one₀ (by linarith) (by linarith)
    have h5b : (0 : ℝ) ≤ (1 - c) ^ 5 := pow_nonneg (by linarith) 5
    nlinarith [hA, h5a, h5b]
  · intro t ht
    constructor
    · intro r hr
      rw [Refractive.calcNextRay, if_neg (not_lt.mpr ht), hr]
    · intro hr
      rw [Refractive.calcNextRay, if_neg (not_lt.mpr ht), hr]

/-- Claim C6: `Specular::shade` and `Refractive::shade` each draw exactly one
coefficient sample, trace the sampled next ray over the strictly-positive
distance range at `depth + 1`, and return the sample's coefficient (the
albedo color as a vector) multiplied componentwise by the traced radiance,
with no division by the sample's pdf. -/
theorem shade_traces_depth_plus_one (trace : Ray → DisRange → ℕ → Color)
    (s : Specular) (m : Refractive) (ray : Ray) (isect : RayIntersection)
    (depth : ℕ) (u : ℝ) :
    (∃ rayNext : Ray, s.calcNextRay ray isect = some rayNext ∧
      Specular.shade trace s ray isect depth =
        some (Vec3.mulV s.color.toVector
          (trace rayNext DisRange.positive (depth + 1)))) ∧
    (∀ rayNext : Ray, m.calcNextRay ray isect u = some rayNext →
      Refractive.shade trace m ray isect depth u =
        some (Vec3.mulV m.color.toVector
          (trace rayNext DisRange.positive (depth + 1)))) := by
  constructor
  · have h1 := reflectVec_normSq ray.direction.val isect.normal.val
      ray.direction.property isect.normal.property
    refine ⟨⟨isect.position, ⟨reflectVec ray.direction.val isect.normal.val, h1⟩⟩,
      ?_, ?_⟩
    · rw [Specular.calcNextRay, Vec3.normalize_of_normSq_one h1]
      rfl
    · rw [Specular.shade, Specular.coefSample, Specular.calcNextRay,
        Vec3.normalize_of_normSq_one h1]
      rfl
  · intro rayNext h
    rw [Refractive.shade, Refractive.coefSample, h]
    rfl

/-- Claim C4: `Plane::hit` returns `None` on a zero denominator (ray parallel
to the plane) and on a non-positive or out-of-range distance; otherwise it
returns the intersection at distance `num / den` with the normal and side
oriented by the sign of the denominator (negative: original normal, `Front`;
positive: negated normal, `Back`). -/
theorem plane_hit_characterization (p : Plane) (ray : Ray) (range : DisRange) :
    (p.den ray = 0 → p.hit ray range = none) ∧
    (p.den ray ≠ 0 → p.dis ray ≤ 0 ∨ ¬ range.mem (p.dis ray) →
      p.hit ray range = none) ∧
    (p.den ray ≠ 0 → 0 < p.dis ray → range.mem (p.dis ray) →
      p.hit ray range = some ⟨p.dis ray, ray.at (p.dis ray),
        if p.den ray < 0 then p.normal else -p.normal,
        if p.den ray < 0 then SurfaceSide.Front else SurfaceSide.Back⟩) := by
  refine ⟨?_, ?_, ?_⟩
  · intro h
    rw [Plane.den] at h
    rw [Plane.hit, Plane.calcRayIntersection, if_neg (not_not_intro h)]
  · intro hne hbad
    rw [Plane.den] at hne
    rw [Plane.dis, Plane.den] at hbad
    rw [Plane.hit, Plane.calcRayIntersection, if_pos hne, if_neg]
    rintro ⟨hpos, hmem⟩
    rcases hbad with hbad | hbad
    · exact absurd hpos (not_lt.mpr hbad)
    · exact hbad hmem
  · intro hne hpos hmem
    rw [Plane.dis, Plane.den] at hpos hmem
    rw [Plane.den] at hne ⊢
    rw [Plane.hit, Plane.calcRayIntersection, if_pos hne, if_pos ⟨hpos, hmem⟩]
    rw [Plane.dis, Plane.den]
    by_cases hlt : ray.direction.val.dot p.normal.val < 0
    · rw [if_pos hlt, if_pos hlt, if_pos hlt]
    · rw [if_neg hlt, if_neg hlt, if_neg hlt]

/-- The example plane through `(-1, 0, 0)` with normal `+x` of the source's
`plane_hit_succeeds` test. -/
noncomputable def planeEx : Plane := ⟨⟨-1, 0, 0⟩, UnitVector.xDirection⟩

/-- The example ray from the origin toward `normalize(-1, 0, -1)`. -/
noncomputable def rayDiag : Ray :=
  ⟨⟨0, 0, 0⟩, ⟨⟨-(Real.sqrt 2)⁻¹, 0, -(Real.sqrt 2)⁻¹⟩, by
    have h2 : Real.sqrt 2 * Real.sqrt 2 = 2 := Real.mul_self_sqrt (by norm_num)
    have hs : Real.sqrt 2 ≠ 0 := ne_of_gt (Real.sqrt_pos.mpr (by norm_num))
    simp only [Vec3.normSq_def, Vec3.mk_x, Vec3.mk_y, Vec3.mk_z]
    field_simp⟩⟩

/-- Witness for C4: the spec's concrete plane example, with hit distance
`√2`, position `(-1, 0, -1)`, normal `+x`, side `Front`. -/
theorem plane_hit_characterization_witness :
    planeEx.hit rayDiag DisRange.positive =
      some ⟨Real.sqrt 2, ⟨-1, 0, -1⟩, UnitVector.xDirection,
        SurfaceSide.Front⟩ := by
  have h2 : Real.sqrt 2 * Real.sqrt 2 = 2 := Real.mul_self_sqrt (by norm_num)
  have hspos : 0 < Real.sqrt 2 := Real.sqrt_pos.mpr (by norm_num)
  have hden : planeEx.den rayDiag = -(Real.sqrt 2)⁻¹ := by
    simp [Plane.den, planeEx, rayDiag, UnitVector.xDirection, Vec3.dot_def]
  have hneg : planeEx.den rayDiag < 0 := by
    rw [hden, neg_lt_zero]
    exact inv_pos.mpr hspos
  have hdenne : planeEx.den rayDiag ≠ 0 := ne_of_lt hneg
  have hdis : planeEx.dis rayDiag = Real.sqrt 2 := by
    rw [Plane.dis, hden]
    have hnum : (planeEx.point - rayDiag.start).dot planeEx.normal.val = -1 := by
      simp [planeEx, rayDiag, UnitVector.xDirection, Vec3.dot_def]
    rw [hnum]
    have hs : Real.sqrt 2 ≠ 0 := ne_of_gt hspos
    field_simp
  have hat : rayDiag.at (Real.sqrt 2) = ⟨-1, 0, -1⟩ := by
    have hx : Real.sqrt 2 * (Real.sqrt 2)⁻¹ = 1 := mul_inv_cancel₀ (ne_of_gt hspos)
    ext <;> simp [Ray.at, rayDiag, mul_neg, hx]
  have h3 := (plane_hit_characterization planeEx rayDiag DisRange.positive).2.2
    hdenne (by rw [hdis]; exact hspos) (by rw [hdis]; exact hspos)
  rw [h3, hdis, hat, if_pos hneg, if_pos hneg]
  rfl

/-- The unit direction `(3/5, -4/5, 0)` used by the concrete material
examples. -/
noncomputable def dirEx : UnitVector :=
  ⟨⟨3 / 5, -(4 / 5), 0⟩, by norm_num [Vec3.normSq_def]⟩

/-- A concrete ray with direction `dirEx`. -/
noncomputable def rayEx : Ray := ⟨⟨0, 0, 0⟩, dirEx⟩

/-- A concrete front-side intersection with normal `+y`. -/
noncomputable def isectEx : RayIntersection :=
  ⟨1, ⟨3 / 5, -(4 / 5), 0⟩, UnitVector.yDirection, SurfaceSide.Front⟩

/-- A refractive material with index `1/2` (dense-to-thin on the front side,
forcing total internal reflection for `dirEx`). -/
noncomputable def refrHalf : Refractive := ⟨⟨1, 1, 1⟩, 1 / 2, by norm_num⟩

/-- A refractive material with index `1`. -/
noncomputable def refrOne : Refractive := ⟨⟨1, 1, 1⟩, 1, by norm_num⟩

/-- The mirror image `(3/5, 4/5, 0)` of `dirEx` at normal `+y`. -/
noncomputable def dirRefl : UnitVector :=
  ⟨⟨3 / 5, 4 / 5, 0⟩, by norm_num [Vec3.normSq_def]⟩

lemma dotEx : rayEx.direction.val.dot isectEx.normal.val = -(4 / 5) := by
  norm_num [rayEx, isectEx, dirEx, UnitVector.yDirection, Vec3.dot_def]

lemma absEx : |rayEx.direction.val.dot isectEx.normal.val| = 4 / 5 := by
  rw [dotEx, abs_neg, abs_of_pos (by norm_num : (0 : ℝ) < 4 / 5)]

lemma riHalfEx : (if isectEx.side = SurfaceSide.Front
    then refrHalf.refractive_index else refrHalf.refractive_index⁻¹) = 1 / 2 := by
  simp [isectEx, refrHalf]

lemma riOneEx : (if isectEx.side = SurfaceSide.Front
    then refrOne.refractive_index else refrOne.refractive_index⁻¹) = 1 := by
  simp [isectEx, refrOne]

/-- Witness for C2: with index `1/2`, direction `(3/5, -4/5, 0)` and normal
`+y`, the perpendicular component has squared norm `36/25 > 1`, so `tmp < 0`
and `calc_next_ray` at `reflection_determination = 1` reflects. -/
theorem refractive_total_internal_reflection_witness :
    refrHalf.calcNextRay rayEx isectEx 1 =
      refrHalf.calcNextReflectiveRay rayEx isectEx := by
  refine (refractive_total_internal_reflection refrHalf rayEx isectEx 1 ?_ ?_).1
  · rw [absEx, riHalfEx, Refractive.calcReflectance]
    norm_num
  · rw [absEx, riHalfEx]
    norm_num [rayEx, isectEx, dirEx, UnitVector.yDirection, Vec3.normSq_def]

/-- Witness for C5: with index `1`, reflectance is `(1/5)^5 ∈ (0,1)`; pinning
the draw to `0` reflects, pinning it to `1` refracts (straight through). -/
theorem refractive_branch_selection_witness :
    refrOne.calcNextRay rayEx isectEx 0 =
      refrOne.calcNextReflectiveRay rayEx isectEx ∧
    refrOne.calcNextRay rayEx isectEx 1 = some ⟨isectEx.position, dirEx⟩ := by
  obtain ⟨ha, hb, hc⟩ := refractive_branch_selection refrOne rayEx isectEx
  constructor
  · apply ha
    rw [absEx, riOneEx, Refractive.calcReflectance]
    norm_num
  · have hperp : (1 : ℝ)⁻¹ •
        (rayEx.direction.val + (4 / 5 : ℝ) • isectEx.normal.val) =
        (⟨3 / 5, 0, 0⟩ : Vec3) := by
      norm_num [rayEx, isectEx, dirEx, UnitVector.yDirection]
    have hrd : refrOne.calcNextRefractiveDirection rayEx isectEx (4 / 5) 1 =
        some (some ⟨isectEx.position, dirEx⟩) := by
      rw [Refractive.calcNextRefractiveDirection, hperp]
      rw [if_neg (by norm_num [Vec3.normSq_def])]
      have htmp : (1 : ℝ) - Vec3.normSq ⟨3 / 5, 0, 0⟩ = (4 / 5) ^ 2 := by
        norm_num [Vec3.normSq_def]
      rw [htmp, Real.sqrt_sq (by norm_num : (0 : ℝ) ≤ 4 / 5)]
      have hsum : (-(4 / 5) : ℝ) • isectEx.normal.val + (⟨3 / 5, 0, 0⟩ : Vec3) =
          (⟨3 / 5, -(4 / 5), 0⟩ : Vec3) := by
        norm_num [isectEx, UnitVector.yDirection]
      simp only [hsum]
      rw [Vec3.normalize_of_normSq_one (by norm_num [Vec3.normSq_def] :
          Vec3.normSq ⟨3 / 5, -(4 / 5), 0⟩ = 1)]
      rfl
    have hrd2 : refrOne.calcNextRefractiveDirection rayEx isectEx
        |rayEx.direction.val.dot isectEx.normal.val|
        (if isectEx.side = SurfaceSide.Front then refrOne.refractive_index
          else refrOne.refractive_index⁻¹) =
        some (some ⟨isectEx.position, dirEx⟩) := by
      rw [absEx, riOneEx]
      exact hrd
    refine (hc 1 ?_).1 _ hrd2
    rw [absEx, riOneEx, Refractive.calcReflectance]
    norm_num

/-- The fixed trace collaborator used by the C6 witness: returns the depth it
was called at, as a color. -/
noncomputable def traceEx : Ray → DisRange → ℕ → Color :=
  fun _ _ n => ⟨(n : ℝ), 0, 0⟩

/-- Witness for C6: shading the concrete refractive example at depth `3`
returns the albedo times the radiance traced at depth `4`. -/
theorem shade_traces_depth_plus_one_witness :
    Refractive.shade traceEx refrOne rayEx isectEx 3 0 =
      some (Vec3.mulV refrOne.color.toVector
        (traceEx ⟨isectEx.position, dirRefl⟩ DisRange.positive 4)) := by
  have hcalc : refrOne.calcNextRay rayEx isectEx 0 =
      some ⟨isectEx.position, dirRefl⟩ := by
    rw [Refractive.calcNextRay]
    rw [if_pos (show (0 : ℝ) < refrOne.calcReflectance
        |rayEx.direction.val.dot isectEx.normal.val|
        (if isectEx.side = SurfaceSide.Front then refrOne.refractive_index
          else refrOne.refractive_index⁻¹) by
      rw [absEx, riOneEx, Refractive.calcReflectance]
      norm_num)]
    rw [Refractive.calcNextReflectiveRay]
    have hrefl : reflectVec rayEx.direction.val isectEx.normal.val =
        ⟨3 / 5, 4 / 5, 0⟩ := by
      norm_num [reflectVec, rayEx, isectEx, dirEx, UnitVector.yDirection,
        Vec3.dot_def]
    rw [hrefl,
      Vec3.normalize_of_normSq_one (by norm_num [Vec3.normSq_def] :
        Vec3.normSq ⟨3 / 5, 4 / 5, 0⟩ = 1)]
    rfl
  exact (shade_traces_depth_plus_one traceEx ⟨⟨1, 1, 1⟩⟩ refrOne rayEx isectEx
    3 0).2 _ hcalc

lemma lightSampleAux_isSome (s : SphereSampler) (ray : Ray)
    (isect : RayIntersection) (material : MaterialDyn) (u₁ u₂ : ℝ)
    (g : UnitVector) (hb : ∀ rn : Ray, (material.bsdf ray isect rn).isSome) :
    (s.lightSampleAux ray isect material u₁ u₂ g).isSome := by
  simp only [SphereSampler.lightSampleAux]
  split
  · rfl
  · rename_i direction heq
    rcases hbs : material.bsdf ray isect ⟨isect.position, direction⟩ with _ | b
    · have hsome := hb ⟨isect.position, direction⟩
      rw [hbs] at hsome
      simp at hsome
    · split
      · rename_i hcontra
        simp at hcontra
      · split <;> rfl

/-- The unit sphere at the origin. -/
noncomputable def sphereUnit : Sphere := ⟨⟨0, 0, 0⟩, 1, by norm_num⟩

/-- A sampler for the unit sphere at the origin. -/
noncomputable def samplerEx : SphereSampler := ⟨⟨ShapeKind.Sphere, 0⟩, sphereUnit⟩

/-- An intersection located exactly at the sphere's center. -/
noncomputable def isectCenter : RayIntersection :=
  ⟨1, ⟨0, 0, 0⟩, UnitVector.zDirection, SurfaceSide.Front⟩

/-- A concrete query ray along `+z`. -/
noncomputable def rayZ : Ray := ⟨⟨0, 0, 0⟩, UnitVector.zDirection⟩

/-- A material whose `bsdf` is the total constant `(1, 1, 1)`. -/
noncomputable def matConst : MaterialDyn := ⟨fun _ _ _ => some ⟨1, 1, 1⟩⟩

/-- Counterexample for C1 as stated: at an intersection placed exactly at the
sphere's center, `SphereSampler::light_pdf` `unwrap`s the failed
normalization of the zero vector toward the center and panics (`none` in the
model), so it does not complete. -/
theorem sphere_light_pdf_center_panics :
    samplerEx.lightPdf isectCenter rayZ = none := by
  have h0 : samplerEx.shape.center - isectCenter.position = (0 : Vec3) := by
    simp only [samplerEx, sphereUnit, isectCenter, Vec3.zero_def, Vec3.sub_def]
    norm_num
  simp only [SphereSampler.lightPdf, h0, Vec3.normalize_zero]

/-- Claim C1 (amended): at an intersection coinciding with the sphere's
center, `light_sample` substitutes the default `z_direction` for the failed
normalization (the cone axis used is its negation) and completes without
panicking whenever the material's `bsdf` is total; `light_pdf`, by contrast,
panics there (see the counterexample). -/
theorem sphere_light_sample_center_defaults_axis (s : SphereSampler)
    (ray : Ray) (isect : RayIntersection) (material : MaterialDyn) (u₁ u₂ : ℝ)
    (hc : isect.position = s.shape.center)
    (hb : ∀ rn : Ray, (material.bsdf ray isect rn).isSome) :
    s.lightSample ray isect material u₁ u₂ =
      s.lightSampleAux ray isect material u₁ u₂ (-UnitVector.zDirection) ∧
    (s.lightSample ray isect material u₁ u₂).isSome := by
  have h0 : s.shape.center - isect.position = (0 : Vec3) := by
    rw [hc]
    simp only [Vec3.zero_def, Vec3.sub_def]
    norm_num
  have h1 : s.lightSample ray isect material u₁ u₂ =
      s.lightSampleAux ray isect material u₁ u₂ (-UnitVector.zDirection) := by
    simp only [SphereSampler.lightSample, h0, Vec3.normalize_zero,
      Option.getD_none]
  exact ⟨h1, h1 ▸ lightSampleAux_isSome s ray isect material u₁ u₂ _ hb⟩

/-- Witness for the amended C1 at the concrete unit sphere with an
intersection at its center. -/
theorem sphere_light_sample_center_defaults_axis_witness :
    samplerEx.lightSample rayZ isectCenter matConst 0 0 =
      samplerEx.lightSampleAux rayZ isectCenter matConst 0 0
        (-UnitVector.zDirection) ∧
    (samplerEx.lightSample rayZ isectCenter matConst 0 0).isSome :=
  sphere_light_sample_center_defaults_axis samplerEx rayZ isectCenter matConst
    0 0 rfl (fun _ => rfl)

lemma sampled_local_normSq (r θ z : ℝ) (hz2 : z ^ 2 ≤ 1) :
    (r • (⟨Real.cos θ * Real.sqrt (1 - z ^ 2),
        Real.sin θ * Real.sqrt (1 - z ^ 2), z⟩ : Vec3)).normSq = r ^ 2 := by
  have h : Real.sqrt (1 - z ^ 2) ^ 2 = 1 - z ^ 2 :=
    Real.sq_sqrt (by linarith)
  simp only [Vec3.smul_def, Vec3.normSq_def, Vec3.mk_x, Vec3.mk_y, Vec3.mk_z]
  linear_combination (r ^ 2 * Real.sqrt (1 - z ^ 2) ^ 2) *
    Real.sin_sq_add_cos_sq θ + r ^ 2 * h

lemma sphere_cone_dot_bound (T a w : Vec3) (r u₂ z : ℝ) (u₀ dirw : UnitVector)
    (hr : 0 < r) (hout : r ^ 2 < T.normSq)
    (hz : z = 1 + u₂ * (Real.sqrt (1 - r ^ 2 / T.normSq) - 1))
    (hu0 : 0 ≤ u₂) (hu1 : u₂ ≤ 1)
    (hu : u₀.val = T.norm⁻¹ • T)
    (hadot : a.dot u₀.val = -(r * z))
    (hanorm : a.normSq = r ^ 2)
    (hw : w = T + a)
    (hnorm : w.normalize = some dirw) :
    Real.sqrt (1 - r ^ 2 / T.normSq) ≤ dirw.val.dot u₀.val := by
  have hd2pos : 0 < T.normSq := lt_trans (by positivity) hout
  have hTne : T ≠ 0 := by
    intro h
    rw [h, Vec3.normSq_zero] at hd2pos
    exact lt_irrefl 0 hd2pos
  set d := T.norm with hddef
  have hdpos : 0 < d := by
    rw [hddef]
    exact Vec3.norm_pos_of_ne_zero hTne
  have hdd : d * d = T.normSq := by
    rw [hddef]
    exact Vec3.norm_sq_eq_normSq T
  clear_value d
  have hrd : r < d := by nlinarith
  set q : ℝ := 1 - r ^ 2 / T.normSq with hq
  clear_value q
  have hq0 : 0 < q := by
    rw [hq]
    have h1 : r ^ 2 / T.normSq < 1 := (div_lt_one hd2pos).mpr hout
    linarith
  have hq1 : q < 1 := by
    rw [hq]
    have h1 : 0 < r ^ 2 / T.normSq := by positivity
    linarith
  set cm : ℝ := Real.sqrt q with hcm
  clear_value cm
  have hcm0 : 0 ≤ cm := by
    rw [hcm]
    exact Real.sqrt_nonneg q
  have hcm2 : cm * cm = q := by
    rw [hcm]
    exact Real.mul_self_sqrt hq0.le
  have hcm1 : cm < 1 := by nlinarith
  have hzcm : cm ≤ z := by rw [hz]; nlinarith
  have hz1 : z ≤ 1 := by rw [hz]; nlinarith
  have hz0 : 0 ≤ z := le_trans hcm0 hzcm
  have h1z : z ^ 2 ≤ 1 := by nlinarith
  have haT : a.dot T = -(d * (r * z)) := by
    have h1 : a.dot u₀.val = d⁻¹ * a.dot T := by
      rw [hu, Vec3.dot_smul, hddef]
    rw [hadot] at h1
    have h2 : d * -(r * z) = d * (d⁻¹ * a.dot T) := by rw [← h1]
    rw [← mul_assoc, mul_inv_cancel₀ (ne_of_gt hdpos), one_mul] at h2
    linarith
  have hTT : T.dot T = T.normSq := rfl
  have hwT : w.dot T = T.normSq - d * (r * z) := by
    rw [hw, Vec3.add_dot, hTT, haT]
    ring
  have hwnormSq : w.normSq = T.normSq - 2 * (d * (r * z)) + r ^ 2 := by
    rw [hw, Vec3.normSq_add, Vec3.dot_comm T a, haT, hanorm]
    ring
  have hdrz : 0 < d - r * z := by nlinarith
  have hWsplit : w.normSq = (d - r * z) ^ 2 + r ^ 2 * (1 - z ^ 2) := by
    rw [hwnormSq]
    linear_combination (-1 : ℝ) * hdd
  have hWpos : 0 < w.normSq := by
    rw [hWsplit]
    nlinarith [mul_pos hdrz hdrz,
      mul_nonneg (sq_nonneg r) (sub_nonneg.mpr h1z)]
  have hwne : w ≠ 0 := by
    intro h
    rw [h, Vec3.normSq_zero] at hWpos
    exact lt_irrefl 0 hWpos
  obtain ⟨hne, hval⟩ := Vec3.normalize_eq_some_elim hnorm
  have hwnorm_pos : 0 < w.norm := Vec3.norm_pos_of_ne_zero hwne
  have hwnn : w.norm * w.norm = w.normSq := Vec3.norm_sq_eq_normSq w
  have hd0 : d ≠ 0 := ne_of_gt hdpos
  have hwn0 : w.norm ≠ 0 := ne_of_gt hwnorm_pos
  have hcos : dirw.val.dot u₀.val = w.norm⁻¹ * (d - r * z) := by
    rw [hval, hu, Vec3.smul_dot, Vec3.dot_smul, hwT, ← hdd]
    field_simp
    ring
  have hkey : q * w.normSq ≤ (d - r * z) ^ 2 := by
    have hident : T.normSq * ((d - r * z) ^ 2 - q * w.normSq) =
        r ^ 2 * (d * z - r) ^ 2 := by
      rw [hq, hwnormSq, ← hdd]
      field_simp
      ring
    have h5 : 0 ≤ T.normSq * ((d - r * z) ^ 2 - q * w.normSq) := by
      rw [hident]
      positivity
    have h6 : 0 ≤ (d - r * z) ^ 2 - q * w.normSq :=
      nonneg_of_mul_nonneg_right h5 hd2pos
    linarith
  have hle : cm * w.norm ≤ d - r * z := by
    have h1 : cm * w.norm = Real.sqrt (q * w.normSq) := by
      rw [Real.sqrt_mul hq0.le, hcm, Vec3.norm]
    have h2 : d - r * z = Real.sqrt ((d - r * z) ^ 2) :=
      (Real.sqrt_sq hdrz.le).symm
    rw [h1, h2]
    exact Real.sqrt_le_sqrt hkey
  rw [hcos]
  have h3 : cm = cm * w.norm * w.norm⁻¹ := by
    field_simp
  rw [h3]
  have h4 : cm * w.norm * w.norm⁻¹ ≤ (d - r * z) * w.norm⁻¹ :=
    mul_le_mul_of_nonneg_right hle (inv_nonneg.mpr hwnorm_pos.le)
  calc cm * w.norm * w.norm⁻¹ ≤ (d - r * z) * w.norm⁻¹ := h4
  _ = w.norm⁻¹ * (d - r * z) := by ring

lemma lightPdf_of_normalize_some (s : SphereSampler) (isect : RayIntersection)
    (rayNext : Ray) (u₀ : UnitVector)
    (hu₀ : (s.shape.center - isect.position).normalize = some u₀) :
    s.lightPdf isect rayNext =
      if rayNext.direction.val.dot u₀.val ≥
          Real.sqrt (1 - s.shape.radius ^ 2 /
            (s.shape.center - isect.position).normSq) then
        some (2 * Real.pi * (1 - Real.sqrt (1 - s.shape.radius ^ 2 /
          (s.shape.center - isect.position).normSq)))⁻¹
      else some 0 := by
  simp only [SphereSampler.lightPdf, hu₀]

/-- Claim C3: for an intersection strictly outside the sphere, any sample that
`light_sample` returns as `Some` satisfies the round trip: the sampled
direction passes the cone test against the direction toward the center, and
`light_pdf` on the sample's ray returns exactly the sample's pdf, the nonzero
value `1 / (2π (1 - cos_max_half_cone_angle))`. -/
theorem sphere_light_sample_pdf_roundtrip (s : SphereSampler) (ray : Ray)
    (isect : RayIntersection) (material : MaterialDyn) (u₁ u₂ : ℝ)
    (smp : LightSample)
    (houtside : s.shape.radius ^ 2 <
      (s.shape.center - isect.position).normSq)
    (hu₂0 : 0 ≤ u₂) (hu₂1 : u₂ ≤ 1)
    (hs : s.lightSample ray isect material u₁ u₂ = some (some smp)) :
    smp.pdf = (2 * Real.pi * (1 - Real.sqrt (1 - s.shape.radius ^ 2 /
        (s.shape.center - isect.position).normSq)))⁻¹ ∧
    0 < smp.pdf ∧
    Real.sqrt (1 - s.shape.radius ^ 2 /
        (s.shape.center - isect.position).normSq) ≤
      smp.ray.direction.val.dot
        ((s.shape.center - isect.position).norm⁻¹ •
          (s.shape.center - isect.position)) ∧
    s.lightPdf isect smp.ray = some smp.pdf := by
  have hr : 0 < s.shape.radius := s.shape.radius_pos
  have hd2pos : 0 < (s.shape.center - isect.position).normSq :=
    lt_trans (by positivity) houtside
  have hTne : s.shape.center - isect.position ≠ 0 := by
    intro h
    rw [h, Vec3.normSq_zero] at hd2pos
    exact lt_irrefl 0 hd2pos
  obtain ⟨u₀, hu₀, hu₀val⟩ := Vec3.normalize_of_ne_zero hTne
  -- facts about the cone cosine and the sampled z
  have hq0 : 0 < 1 - s.shape.radius ^ 2 /
      (s.shape.center - isect.position).normSq := by
    have h1 : s.shape.radius ^ 2 / (s.shape.center - isect.position).normSq
        < 1 := (div_lt_one hd2pos).mpr houtside
    linarith
  have hq1 : 1 - s.shape.radius ^ 2 /
      (s.shape.center - isect.position).normSq < 1 := by
    have h1 : 0 < s.shape.radius ^ 2 /
        (s.shape.center - isect.position).normSq := by positivity
    linarith
  have hcm0 : 0 ≤ Real.sqrt (1 - s.shape.radius ^ 2 /
      (s.shape.center - isect.position).normSq) := Real.sqrt_nonneg _
  have hcm1 : Real.sqrt (1 - s.shape.radius ^ 2 /
      (s.shape.center - isect.position).normSq) < 1 := by
    have h2 := Real.mul_self_sqrt hq0.le
    nlinarith [hcm0]
  have hz0 : 0 ≤ 1 + u₂ * (Real.sqrt (1 - s.shape.radius ^ 2 /
      (s.shape.center - isect.position).normSq) - 1) := by nlinarith
  have hz1 : 1 + u₂ * (Real.sqrt (1 - s.shape.radius ^ 2 /
      (s.shape.center - isect.position).normSq) - 1) ≤ 1 := by nlinarith
  have hz2 : (1 + u₂ * (Real.sqrt (1 - s.shape.radius ^ 2 /
      (s.shape.center - isect.position).normSq) - 1)) ^ 2 ≤ 1 := by nlinarith
  have hpdfpos : 0 < (2 * Real.pi * (1 - Real.sqrt (1 - s.shape.radius ^ 2 /
      (s.shape.center - isect.position).normSq)))⁻¹ := by
    apply inv_pos.mpr
    have hpi := Real.pi_pos
    nlinarith
  -- unfold the sample
  simp only [SphereSampler.lightSample, SphereSampler.lightSampleAux, hu₀,
    Option.getD_some, UnitVector.neg_val] at hs
  split at hs
  · simp at hs
  · rename_i direction heq
    split at hs
    · simp at hs
    · rename_i b hbs
      split at hs
      · rename_i hbnz
        simp only [Option.some.injEq] at hs
        subst hs
        have hneg1 : (-u₀.val).normSq = 1 := by
          rw [Vec3.normSq_neg]
          exact u₀.property
        have hlz : (s.shape.radius • (⟨Real.cos (u₁ * 2 * Real.pi) *
            Real.sqrt (1 - (1 + u₂ * (Real.sqrt (1 - s.shape.radius ^ 2 /
              (s.shape.center - isect.position).normSq) - 1)) ^ 2),
            Real.sin (u₁ * 2 * Real.pi) *
            Real.sqrt (1 - (1 + u₂ * (Real.sqrt (1 - s.shape.radius ^ 2 /
              (s.shape.center - isect.position).normSq) - 1)) ^ 2),
            1 + u₂ * (Real.sqrt (1 - s.shape.radius ^ 2 /
              (s.shape.center - isect.position).normSq) - 1)⟩ : Vec3)).z =
            s.shape.radius * (1 + u₂ * (Real.sqrt (1 - s.shape.radius ^ 2 /
              (s.shape.center - isect.position).normSq) - 1)) := rfl
        have hadot : (rotateZTo (-u₀.val) (s.shape.radius •
            (⟨Real.cos (u₁ * 2 * Real.pi) *
              Real.sqrt (1 - (1 + u₂ * (Real.sqrt (1 - s.shape.radius ^ 2 /
                (s.shape.center - isect.position).normSq) - 1)) ^ 2),
              Real.sin (u₁ * 2 * Real.pi) *
              Real.sqrt (1 - (1 + u₂ * (Real.sqrt (1 - s.shape.radius ^ 2 /
                (s.shape.center - isect.position).normSq) - 1)) ^ 2),
              1 + u₂ * (Real.sqrt (1 - s.shape.radius ^ 2 /
                (s.shape.center - isect.position).normSq) - 1)⟩ :
              Vec3))).dot u₀.val =
            -(s.shape.radius * (1 + u₂ * (Real.sqrt (1 - s.shape.radius ^ 2 /
              (s.shape.center - isect.position).normSq) - 1))) := by
          have h1 := rotateZTo_dot_axis hneg1 (s.shape.radius •
            (⟨Real.cos (u₁ * 2 * Real.pi) *
              Real.sqrt (1 - (1 + u₂ * (Real.sqrt (1 - s.shape.radius ^ 2 /
                (s.shape.center - isect.position).normSq) - 1)) ^ 2),
              Real.sin (u₁ * 2 * Real.pi) *
              Real.sqrt (1 - (1 + u₂ * (Real.sqrt (1 - s.shape.radius ^ 2 /
                (s.shape.center - isect.position).normSq) - 1)) ^ 2),
              1 + u₂ * (Real.sqrt (1 - s.shape.radius ^ 2 /
                (s.shape.center - isect.position).normSq) - 1)⟩ : Vec3))
          rw [Vec3.dot_neg] at h1
          rw [hlz] at h1
          linarith [h1]
        have hanorm : (rotateZTo (-u₀.val) (s.shape.radius •
            (⟨Real.cos (u₁ * 2 * Real.pi) *
              Real.sqrt (1 - (1 + u₂ * (Real.sqrt (1 - s.shape.radius ^ 2 /
                (s.shape.center - isect.position).normSq) - 1)) ^ 2),
              Real.sin (u₁ * 2 * Real.pi) *
              Real.sqrt (1 - (1 + u₂ * (Real.sqrt (1 - s.shape.radius ^ 2 /
                (s.shape.center - isect.position).normSq) - 1)) ^ 2),
              1 + u₂ * (Real.sqrt (1 - s.shape.radius ^ 2 /
                (s.shape.center - isect.position).normSq) - 1)⟩ :
              Vec3))).normSq = s.shape.radius ^ 2 := by
          rw [rotateZTo_normSq hneg1]
          exact sampled_local_normSq s.shape.radius (u₁ * 2 * Real.pi) _ hz2
        have hcone := sphere_cone_dot_bound
          (s.shape.center - isect.position) _ _ s.shape.radius u₂
          (1 + u₂ * (Real.sqrt (1 - s.shape.radius ^ 2 /
            (s.shape.center - isect.position).normSq) - 1)) u₀ direction
          hr houtside rfl hu₂0 hu₂1 hu₀val hadot hanorm rfl heq
        refine ⟨rfl, hpdfpos, ?_, ?_⟩
        · rw [← hu₀val]
          exact hcone
        · rw [lightPdf_of_normalize_some s isect _ u₀ hu₀, if_pos hcone]
      · simp at hs

/-- A sphere of radius `√3` centered at `(0, 0, 2)`: seen from the origin the
cone half-angle cosine is `1/2` and the solid angle is `π`. -/
noncomputable def sphereEx3 : Sphere :=
  ⟨⟨0, 0, 2⟩, Real.sqrt 3, Real.sqrt_pos.mpr (by norm_num)⟩

/-- A sampler for `sphereEx3`. -/
noncomputable def samplerEx3 : SphereSampler := ⟨⟨ShapeKind.Sphere, 1⟩, sphereEx3⟩

/-- An intersection at the origin with normal `+z` (toward the sphere). -/
noncomputable def isectO : RayIntersection :=
  ⟨1, ⟨0, 0, 0⟩, UnitVector.zDirection, SurfaceSide.Front⟩

/-- An incoming ray ending at the origin. -/
noncomputable def rayO : Ray := ⟨⟨0, 0, -1⟩, UnitVector.zDirection⟩

/-- The light sample produced by `samplerEx3` at `isectO` with both uniform
draws pinned to `0`: the ray toward the sphere's nearest point, coefficient
`π * (1,1,1)` and pdf `π⁻¹`. -/
noncomputable def smpEx : LightSample :=
  ⟨⟨⟨0, 0, 0⟩, UnitVector.zDirection⟩, Real.pi • (⟨1, 1, 1⟩ : Vec3),
    Real.pi⁻¹, ⟨ShapeKind.Sphere, 1⟩⟩

lemma sqrt3_lt_two : Real.sqrt 3 < 2 := by
  have h := Real.sq_sqrt (by norm_num : (0 : ℝ) ≤ 3)
  nlinarith [Real.sqrt_nonneg 3]

lemma normalize_twoSubSqrt3 :
    (⟨0, 0, 2 - Real.sqrt 3⟩ : Vec3).normalize = some UnitVector.zDirection := by
  have hpos : 0 < 2 - Real.sqrt 3 := by linarith [sqrt3_lt_two]
  have hne : (⟨0, 0, 2 - Real.sqrt 3⟩ : Vec3) ≠ 0 := by
    intro h
    rw [Vec3.zero_def] at h
    have := congrArg Vec3.z h
    simp only [Vec3.mk_z] at this
    linarith
  obtain ⟨u, hu, huval⟩ := Vec3.normalize_of_ne_zero hne
  rw [hu]
  congr 1
  apply Subtype.ext
  rw [huval]
  have hnorm : (⟨0, 0, 2 - Real.sqrt 3⟩ : Vec3).norm = 2 - Real.sqrt 3 := by
    rw [Vec3.norm]
    have h1 : (⟨0, 0, 2 - Real.sqrt 3⟩ : Vec3).normSq = (2 - Real.sqrt 3) ^ 2 := by
      simp only [Vec3.normSq_def, Vec3.mk_x, Vec3.mk_y, Vec3.mk_z]
      ring
    rw [h1, Real.sqrt_sq hpos.le]
  rw [hnorm, UnitVector.zDirection]
  ext <;> simp only [Vec3.smul_def, Vec3.mk_x, Vec3.mk_y, Vec3.mk_z] <;>
    field_simp

lemma normalize_zz2 :
    (⟨0, 0, 2⟩ : Vec3).normalize = some UnitVector.zDirection := by
  have hne : (⟨0, 0, 2⟩ : Vec3) ≠ 0 := by
    intro h
    rw [Vec3.zero_def] at h
    have := congrArg Vec3.z h
    simp only [Vec3.mk_z] at this
    norm_num at this
  obtain ⟨u, hu, huval⟩ := Vec3.normalize_of_ne_zero hne
  rw [hu]
  congr 1
  apply Subtype.ext
  rw [huval]
  have hnorm : (⟨0, 0, 2⟩ : Vec3).norm = 2 := by
    rw [Vec3.norm]
    have h1 : (⟨0, 0, 2⟩ : Vec3).normSq = 2 ^ 2 := by
      simp only [Vec3.normSq_def, Vec3.mk_x, Vec3.mk_y, Vec3.mk_z]
      ring
    rw [h1, Real.sqrt_sq (by norm_num : (0 : ℝ) ≤ 2)]
  rw [hnorm, UnitVector.zDirection]
  ext <;> simp only [Vec3.smul_def, Vec3.mk_x, Vec3.mk_y, Vec3.mk_z] <;>
    norm_num

lemma lightSampleEx_eval :
    samplerEx3.lightSample rayO isectO matConst 0 0 = some (some smpEx) := by
  simp only [SphereSampler.lightSample, SphereSampler.lightSampleAux,
    samplerEx3, sphereEx3, isectO, matConst, Vec3.sub_def, Vec3.mk_x,
    Vec3.mk_y, Vec3.mk_z, sub_zero]
  rw [normalize_zz2]
  simp only [Option.getD_some, UnitVector.neg_val, UnitVector.zDirection,
    Vec3.neg_def, neg_zero, Vec3.mk_x, Vec3.mk_y, Vec3.mk_z]
  have h4 : (⟨0, 0, 2⟩ : Vec3).normSq = 4 := by
    simp only [Vec3.normSq_def, Vec3.mk_x, Vec3.mk_y, Vec3.mk_z]
    norm_num
  simp only [h4]
  have h33 : Real.sqrt 3 ^ 2 = 3 := Real.sq_sqrt (by norm_num)
  simp only [h33]
  have h14 : (1 : ℝ) - 3 / 4 = (1 / 2) ^ 2 := by norm_num
  simp only [h14, Real.sqrt_sq (by norm_num : (0 : ℝ) ≤ 1 / 2)]
  simp only [zero_mul, add_zero, one_pow, sub_self, Real.sqrt_zero, mul_zero,
    Vec3.smul_def, Vec3.mk_x, Vec3.mk_y, Vec3.mk_z, mul_one]
  rw [rotateZTo, if_pos rfl]
  simp only [Vec3.mk_x, Vec3.mk_y, Vec3.mk_z, neg_zero, Vec3.add_def,
    add_zero, zero_add]
  rw [show (2 : ℝ) + -Real.sqrt 3 = 2 - Real.sqrt 3 from by ring]
  rw [normalize_twoSubSqrt3]
  split
  · rename_i heq
    simp at heq
  · rename_i direction heq
    have hdir : direction = UnitVector.zDirection := (Option.some_inj.mp heq).symm
    subst hdir
    rw [if_pos (show Vec3.normSq ⟨1, 1, 1⟩ ≠ 0 from by
      simp only [Vec3.normSq_def, Vec3.mk_x, Vec3.mk_y, Vec3.mk_z]
      norm_num)]
    have hpi : 2 * Real.pi * (1 - 1 / 2) = Real.pi := by ring
    have hdot : (UnitVector.zDirection.val).dot ⟨0, 0, 1⟩ = 1 := by
      simp only [UnitVector.zDirection, Vec3.dot_def, Vec3.mk_x, Vec3.mk_y,
        Vec3.mk_z]
      norm_num
    simp only [smpEx, Option.some.injEq, LightSample.mk.injEq, hpi, hdot,
      one_div, inv_inv, Vec3.smul_def, Vec3.mk_x, Vec3.mk_y, Vec3.mk_z,
      mul_one]
    norm_num [UnitVector.zDirection]
    constructor <;> ring

/-- Witness for C3 at the concrete sampler: the sample evaluates as computed
and the round trip through `light_pdf` returns its nonzero pdf `π⁻¹`. -/
theorem sphere_light_sample_pdf_roundtrip_witness :
    samplerEx3.lightSample rayO isectO matConst 0 0 = some (some smpEx) ∧
    samplerEx3.lightPdf isectO smpEx.ray = some smpEx.pdf ∧ 0 < smpEx.pdf := by
  have houtside : samplerEx3.shape.radius ^ 2 <
      (samplerEx3.shape.center - isectO.position).normSq := by
    have h33 : Real.sqrt 3 ^ 2 = 3 := Real.sq_sqrt (by norm_num)
    simp only [samplerEx3, sphereEx3, isectO, h33, Vec3.sub_def,
      Vec3.normSq_def, Vec3.mk_x, Vec3.mk_y, Vec3.mk_z]
    norm_num
  have h := sphere_light_sample_pdf_roundtrip samplerEx3 rayO isectO matConst
    0 0 smpEx houtside (by norm_num) (by norm_num) lightSampleEx_eval
  have hpdf : samplerEx3.lightPdf isectO smpEx.ray = some smpEx.pdf := h.2.2.2
  have hpos : 0 < smpEx.pdf := by
    have h1 := h.2.1
    have h2 := h.1
    rw [h2] at h1 ⊢
    exact h1
  exact ⟨lightSampleEx_eval, hpdf, hpos⟩

end FracturedRay
